import Mathlib

/-!
Verification of the `transparent-rpc` protocol engine (`src/rpc_socket.js`).

The engine is a single class `RpcSocket` holding mutable maps and counters.
We embed it as a state record `RpcSocketState` together with pure transition
functions, one per source method.  JavaScript objects are identified by a
heap id (`Nat`); the heap maps ids to the object fields the engine inspects
(`$rpcId`, `$rpcMethods`, `$free`, and plain data properties).  JavaScript
`Map`s are embedded as insertion-ordered association lists.  Exceptions are
`Except RpcError`; state mutations performed before a throw are kept, so a
function that can throw returns its partial state alongside the error, just
as the mutable JS object would.
-/

set_option maxHeartbeats 1600000
set_option maxRecDepth 2048

namespace TransparentRpc

/-- The `id` field of an inbound wire message: JS distinguishes a missing
field (`undefined`), an explicit `null` (one-way call), and a number. -/
inductive JsId where
  | absent
  | null
  | num (n : Nat)
deriving DecidableEq

/-- JS error values thrown or produced by the engine: `Error`, `TypeError`,
`RangeError` and `SyntaxError` (the latter carrying source-location data). -/
inductive RpcError where
  | err (message : String)
  | typeErr (message : String)
  | rangeErr (message : String)
  | syntaxErr (message fileName : String) (lineNumber : Nat)
deriving DecidableEq

/-- The `$free` disposal hook stored on an object.  `make$free` chains the
engine's deletion of the stub id onto any hook already present
(`stubChain`); with no prior hook it installs a bare deletion (`stubDelete`).
A host-installed hook is `user` (identified by a tag); a proxy's hook
deletes the proxy from `knownProxies` (`proxyDelete`). -/
inductive FreeHook where
  | user (tag : Nat)
  | stubDelete (id : Int)
  | stubChain (id : Int) (prev : FreeHook)
  | proxyDelete (id : Int)
deriving DecidableEq

/-- A live JS value as seen by the marshaller: primitives, `null` and
`undefined`, arrays (deep-structural), and objects identified by heap id. -/
inductive Value where
  | vundefined
  | vnull
  | vbool (b : Bool)
  | vnum (n : Int)
  | vstr (s : String)
  | varr (elems : List Value)
  | vobj (oid : Nat)

mutual

/-- Structural equality test for live values (lists compared element-wise). -/
def Value.beq : Value → Value → Bool
  | .vundefined, .vundefined => true
  | .vnull, .vnull => true
  | .vbool a, .vbool b => a == b
  | .vnum a, .vnum b => a == b
  | .vstr a, .vstr b => a == b
  | .varr a, .varr b => Value.beqList a b
  | .vobj a, .vobj b => a == b
  | _, _ => false

/-- Element-wise equality test for lists of live values. -/
def Value.beqList : List Value → List Value → Bool
  | [], [] => true
  | a :: as, b :: bs => Value.beq a b && Value.beqList as bs
  | _, _ => false

end

mutual

theorem Value.beq_correct : ∀ a b : Value, Value.beq a b = true ↔ a = b
  | a, b => by
    cases a <;> cases b <;>
      simp only [Value.beq, beq_iff_eq, reduceCtorEq, iff_false, not_false_eq_true,
        Value.varr.injEq, Value.vobj.injEq, Value.vbool.injEq, Value.vnum.injEq,
        Value.vstr.injEq, Bool.false_eq_true, iff_true]
    case varr.varr a b => exact Value.beqList_correct a b

theorem Value.beqList_correct : ∀ a b : List Value, Value.beqList a b = true ↔ a = b
  | [], [] => by simp [Value.beqList]
  | [], _ :: _ => by simp [Value.beqList]
  | _ :: _, [] => by simp [Value.beqList]
  | a :: as, b :: bs => by
    simp only [Value.beqList, Bool.and_eq_true, List.cons.injEq]
    exact and_congr (Value.beq_correct a b) (Value.beqList_correct as bs)

end

instance : DecidableEq Value := fun a b => decidable_of_iff _ (Value.beq_correct a b)

/-- A wire value: primitives, arrays, a bare reference token
`\x7b$rpcId: id\x7d` (`wref`), or a plain object passed through unchanged. -/
inductive Wire where
  | wundefined
  | wnull
  | wbool (b : Bool)
  | wnum (n : Int)
  | wstr (s : String)
  | warr (elems : List Wire)
  | wref (id : Int)
  | wobj (oid : Nat)

mutual

/-- Structural equality test for wire values. -/
def Wire.beq : Wire → Wire → Bool
  | .wundefined, .wundefined => true
  | .wnull, .wnull => true
  | .wbool a, .wbool b => a == b
  | .wnum a, .wnum b => a == b
  | .wstr a, .wstr b => a == b
  | .warr a, .warr b => Wire.beqList a b
  | .wref a, .wref b => a == b
  | .wobj a, .wobj b => a == b
  | _, _ => false

/-- Element-wise equality test for lists of wire values. -/
def Wire.beqList : List Wire → List Wire → Bool
  | [], [] => true
  | a :: as, b :: bs => Wire.beq a b && Wire.beqList as bs
  | _, _ => false

end

mutual

theorem Wire.beq_sound : ∀ a b : Wire, Wire.beq a b = true ↔ a = b
  | a, b => by
    cases a <;> cases b <;>
      simp only [Wire.beq, beq_iff_eq, reduceCtorEq, iff_false, not_false_eq_true,
        Wire.warr.injEq, Wire.wobj.injEq, Wire.wbool.injEq, Wire.wnum.injEq,
        Wire.wstr.injEq, Wire.wref.injEq, Bool.false_eq_true, iff_true]
    case warr.warr a b => exact Wire.beqList_sound a b

theorem Wire.beqList_sound : ∀ a b : List Wire, Wire.beqList a b = true ↔ a = b
  | [], [] => by simp [Wire.beqList]
  | [], _ :: _ => by simp [Wire.beqList]
  | _ :: _, [] => by simp [Wire.beqList]
  | a :: as, b :: bs => by
    simp only [Wire.beqList, Bool.and_eq_true, List.cons.injEq]
    exact and_congr (Wire.beq_sound a b) (Wire.beqList_sound as bs)

end

instance : DecidableEq Wire := fun a b => decidable_of_iff _ (Wire.beq_sound a b)

deriving instance DecidableEq for Except

/-- The fields of a heap object that the engine reads or writes:
`$rpcId` (set on proxies), `$rpcMethods` (the allow-list capability marker),
`$free` (the disposal hook), and ordinary data properties. -/
structure ObjData where
  rpcId : Option Int := none
  rpcMethods : Option (List String) := none
  free : Option FreeHook := none
  props : List (String × Value) := []
deriving DecidableEq

/-- An export-side stub: `\x7bthis.$rpcId, this.object, this.methods\x7d`
(the constructor copies `object.$rpcMethods` into `methods`). -/
structure RpcStub where
  rpcId : Int
  object : Nat
  methods : List String
deriving DecidableEq

/-- A message written to the socket: `new-object`, `call`, or `reply`
(a success reply carries `reply`; an error reply carries `error` and, for
syntax errors, `message`/`fileName`/`lineNumber`; absent fields are the
defaults `wundefined`/`none`/`""`/`0`). -/
inductive Message where
  | newObject (obj : Int) (methods : List String)
  | callMsg (id : Nat) (obj : Int) (method : String) (params : List Wire)
  | replyMsg (id : Nat) (reply : Wire) (error : Option String)
      (message fileName : String) (lineNumber : Nat)
deriving DecidableEq

/-- The heap: an association from object id to its engine-visible fields. -/
abbrev Heap := List (Nat × ObjData)

/-- The mutable state of one `RpcSocket` (one Endpoint):
`knownStubs` is the weak object→stub cache, `knownStubIds` the strong
id→object table, `knownProxies` the id→proxy table, `pendingCalls` the ids
of outstanding calls, plus the re-entrancy guard, the queued announcements,
the call and stub counters, the `_ended` flag, and `process.pid`. -/
structure RpcSocketState where
  heap : Heap
  knownStubs : List (Nat × RpcStub)
  knownStubIds : List (Int × Nat)
  knownProxies : List (Int × Nat)
  pendingCalls : List Nat
  inCall : Bool
  newObjects : List Message
  callId : Nat
  ended : Bool
  stubCnt : Nat
  pid : Nat
  nextOid : Nat
deriving DecidableEq

/-- JS `Map.set`: replace the value of an existing key in place, else append
(JS maps preserve insertion order). -/
def mapSet {α β : Type} [BEq α] : List (α × β) → α → β → List (α × β)
  | [], k, v => [(k, v)]
  | p :: m, k, v => if p.1 == k then (k, v) :: m else p :: mapSet m k v

/-- JS `Map.delete`. -/
def mapDelete {α β : Type} [BEq α] (m : List (α × β)) (k : α) : List (α × β) :=
  m.filter (fun p => !(p.1 == k))

/-- JS `Map.has`. -/
def mapHas {α β : Type} [BEq α] (m : List (α × β)) (k : α) : Bool :=
  m.any (fun p => p.1 == k)

/-- Read a heap object's fields (callers always pass a live object; a
missing id reads as an empty object). -/
def heapGet (h : Heap) (oid : Nat) : ObjData :=
  (List.lookup oid h).getD {}

/-- Overwrite a heap object's fields. -/
def heapSet (h : Heap) (oid : Nat) (d : ObjData) : Heap :=
  mapSet h oid d

/-- `object[name] = value` on a heap object. -/
def heapSetProp (h : Heap) (oid : Nat) (name : String) (v : Value) : Heap :=
  heapSet h oid { heapGet h oid with props := mapSet (heapGet h oid).props name v }

/-- `object[name]` on a heap object (`undefined` when absent). -/
def heapGetProp (h : Heap) (oid : Nat) (name : String) : Value :=
  (List.lookup name (heapGet h oid).props).getD .vundefined

/-- JS `ToInt32`: reduce into the signed 32-bit range. -/
def toInt32 (n : Int) : Int :=
  (n + 2 ^ 31) % 2 ^ 32 - 2 ^ 31

/-- JS `pid << 24`: both the operand and the result pass through `ToInt32`. -/
def jsShl24 (pid : Nat) : Int :=
  toInt32 (toInt32 pid * 2 ^ 24)

/-- The reference id minted for counter value `cnt`:
`(process.pid << 24) + cnt` (the addition is exact, only `<<` truncates). -/
def mintId (pid cnt : Nat) : Int :=
  jsShl24 pid + cnt

/-- JS `rpcId >> 24` (signed shift = floor division after `ToInt32`). -/
def jsShr24 (rpcId : Int) : Int :=
  Int.fdiv (toInt32 rpcId) (2 ^ 24)

/-- `isStubId`: whether an id was minted by this process. -/
def isStubId (rpcId : Int) (pid : Nat) : Bool :=
  jsShr24 rpcId == (pid : Int)

/-- JS `n.toString(16)` (lowercase hex, `-` for negative numbers). -/
def jsHex (i : Int) : String :=
  if i < 0 then "-" ++ (Nat.toDigits 16 i.natAbs).asString
  else (Nat.toDigits 16 i.natAbs).asString

/-- `make$free(obj, knownStubIds, id)`: install the engine's disposal hook,
chaining onto any pre-existing `$free` rather than overwriting it. -/
def makeFree (h : Heap) (oid : Nat) (id : Int) : Heap :=
  let d := heapGet h oid
  match d.free with
  | some prev => heapSet h oid { d with free := some (.stubChain id prev) }
  | none => heapSet h oid { d with free := some (.stubDelete id) }

/-- Run a `$free` hook: delete the recorded ids from the registry maps and
run any chained prior hook; returns the tags of the user hooks that ran. -/
def runFree : FreeHook → RpcSocketState → RpcSocketState × List Nat
  | .user t, s => (s, [t])
  | .stubDelete id, s => ({ s with knownStubIds := mapDelete s.knownStubIds id }, [])
  | .stubChain id prev, s => runFree prev { s with knownStubIds := mapDelete s.knownStubIds id }
  | .proxyDelete id, s => ({ s with knownProxies := mapDelete s.knownProxies id }, [])

/-- Invoke `obj.$free()` on a heap object (no-op when no hook is present). -/
def invokeFree (s : RpcSocketState) (oid : Nat) : RpcSocketState × List Nat :=
  match (heapGet s.heap oid).free with
  | some hk => runFree hk s
  | none => (s, [])

/-- The tags of the user hooks a `$free` chain will invoke. -/
def userTags : FreeHook → List Nat
  | .user t => [t]
  | .stubDelete _ => []
  | .stubChain _ prev => userTags prev
  | .proxyDelete _ => []

/-- `_sendMetadata(stub)`: queue the `new-object` announcement while a call
is being constructed, else write it to the socket at once. -/
def sendMetadata (stub : RpcStub) (s : RpcSocketState) : RpcSocketState × List Message :=
  if s.inCall then
    ({ s with newObjects := s.newObjects ++ [.newObject stub.rpcId stub.methods] }, [])
  else
    (s, [.newObject stub.rpcId stub.methods])

/-- `addStub(obj)`: return the existing id for an already-exported object;
otherwise require `$rpcMethods`, allocate the next counter value (failing
once the 24-bit space is exhausted — note the counter is incremented before
the check, as in the source), mint the id, install the disposal hook,
record the stub in both registries, and announce it. -/
def addStub (s : RpcSocketState) (oid : Nat) :
    Except RpcError Int × RpcSocketState × List Message :=
  match List.lookup oid s.knownStubs with
  | some stub => (.ok stub.rpcId, s, [])
  | none =>
    match (heapGet s.heap oid).rpcMethods with
    | none => (.error (.typeErr "Invalid stub object"), s, [])
    | some methods =>
      let cnt := s.stubCnt
      let s1 := { s with stubCnt := s.stubCnt + 1 }
      if 2 ^ 24 ≤ cnt then (.error (.rangeErr "Too many stubs"), s1, [])
      else
        let rpcId := mintId s1.pid cnt
        let stub : RpcStub := ⟨rpcId, oid, methods⟩
        let s2 := { s1 with heap := makeFree s1.heap oid rpcId }
        let s3 := { s2 with knownStubs := mapSet s2.knownStubs oid stub,
                            knownStubIds := mapSet s2.knownStubIds rpcId oid }
        let res := sendMetadata stub s3
        (.ok rpcId, res.1, res.2)

mutual

/-- `_marshalArgument(arg)`: primitives pass through; arrays map
recursively; an object with `$rpcId` becomes a reference token when its id
is a known proxy and throws otherwise; an object with `$rpcMethods` is
auto-exported through `addStub`; any other object passes through.  Returns
the JS result or the thrown error, together with the state reached and the
messages written so far (mutations made before a throw persist). -/
def marshalArgument (s : RpcSocketState) :
    Value → Except RpcError Wire × RpcSocketState × List Message
  | .vundefined => (.ok .wundefined, s, [])
  | .vnull => (.ok .wnull, s, [])
  | .vbool b => (.ok (.wbool b), s, [])
  | .vnum n => (.ok (.wnum n), s, [])
  | .vstr t => (.ok (.wstr t), s, [])
  | .varr elems =>
    match marshalList s elems with
    | (.ok ws, s1, w1) => (.ok (.warr ws), s1, w1)
    | (.error e, s1, w1) => (.error e, s1, w1)
  | .vobj oid =>
    match (heapGet s.heap oid).rpcId with
    | some id =>
      if mapHas s.knownProxies id then (.ok (.wref id), s, [])
      else
        (.error (.err ("Invalid object 0x" ++ jsHex id ++
          ", likely a proxy from a different socket")), s, [])
    | none =>
      match (heapGet s.heap oid).rpcMethods with
      | some _ =>
        match addStub s oid with
        | (.ok id, s1, w1) => (.ok (.wref id), s1, w1)
        | (.error e, s1, w1) => (.error e, s1, w1)
      | none => (.ok (.wobj oid), s, [])

/-- `args.map(this._marshalArgument.bind(this))`: marshal left to right,
stopping at the first thrown error. -/
def marshalList (s : RpcSocketState) :
    List Value → Except RpcError (List Wire) × RpcSocketState × List Message
  | [] => (.ok [], s, [])
  | v :: vs =>
    match marshalArgument s v with
    | (.ok w, s1, w1) =>
      match marshalList s1 vs with
      | (.ok ws, s2, w2) => (.ok (w :: ws), s2, w1 ++ w2)
      | (.error e, s2, w2) => (.error e, s2, w1 ++ w2)
    | (.error e, s1, w1) => (.error e, s1, w1)

end

mutual

/-- `_unmarshalArgument(arg)`: primitives pass through; arrays map
recursively; a reference token resolves first in `knownStubIds` (a local
exported object) and then in `knownProxies` (an imported proxy), and throws
when in neither; other objects pass through.  Reads the state only. -/
def unmarshalArgument (s : RpcSocketState) : Wire → Except RpcError Value
  | .wundefined => .ok .vundefined
  | .wnull => .ok .vnull
  | .wbool b => .ok (.vbool b)
  | .wnum n => .ok (.vnum n)
  | .wstr t => .ok (.vstr t)
  | .warr elems =>
    match unmarshalList s elems with
    | .ok vs => .ok (.varr vs)
    | .error e => .error e
  | .wref id =>
    match List.lookup id s.knownStubIds with
    | some oid => .ok (.vobj oid)
    | none =>
      match List.lookup id s.knownProxies with
      | some poid => .ok (.vobj poid)
      | none => .error (.err ("Invalid object " ++ toString id))
  | .wobj oid => .ok (.vobj oid)

/-- `msg.params.map(this._unmarshalArgument.bind(this))`. -/
def unmarshalList (s : RpcSocketState) : List Wire → Except RpcError (List Value)
  | [] => .ok []
  | w :: ws =>
    match unmarshalArgument s w with
    | .ok v =>
      match unmarshalList s ws with
      | .ok vs => .ok (v :: vs)
      | .error e => .error e
    | .error e => .error e

end

/-- `_failAllCalls()`: reject every pending call with a socket-closed error
and replace the pending-call table with a fresh empty map.  The second
component lists the rejections delivered, in table order. -/
def failAllCalls (s : RpcSocketState) : RpcSocketState × List (Nat × RpcError) :=
  ({ s with pendingCalls := [] },
   s.pendingCalls.map (fun i => (i, RpcError.err "Socket closed")))

/-- The `'error'` listener installed by the constructor: fail all pending
calls (and re-emit the error to the host). -/
def handleSocketError (s : RpcSocketState) : RpcSocketState × List (Nat × RpcError) :=
  failAllCalls s

/-- The `'close'` listener installed by the constructor: record that the
socket has ended (and emit `close` to the host).  It touches nothing else. -/
def handleSocketClose (s : RpcSocketState) : RpcSocketState :=
  { s with ended := true }

/-- What `call()` hands back to its caller: a synchronously thrown
exception, an already-rejected future, or a pending future with a call id. -/
inductive CallOutcome where
  | thrown (e : RpcError)
  | rejected (e : RpcError)
  | promise (id : Nat)
deriving DecidableEq

/-- `call(obj, method, args)`: throw on re-entrancy; return an already
rejected future once ended; otherwise set the guard, marshal the arguments
(an error here propagates as an exception, leaving the partial mutations in
place, the guard included), flush the queued announcements, clear the
guard, allocate a call id, register the pending entry, and write the
`call` message. -/
def call (s : RpcSocketState) (obj : Int) (method : String) (args : List Value) :
    CallOutcome × RpcSocketState × List Message :=
  if s.inCall then (.thrown (.err "Re-entrant calls are not supported"), s, [])
  else if s.ended then (.rejected (.err "Socket closed"), s, [])
  else
    match marshalList { s with inCall := true } args with
    | (.error e, s1, w1) => (.thrown e, s1, w1)
    | (.ok marshalled, s1, w1) =>
      let flushed := s1.newObjects
      let s2 := { s1 with newObjects := [], inCall := false }
      let id := s2.callId
      let s3 := { s2 with
        callId := id + 1,
        pendingCalls := if s2.pendingCalls.contains id then s2.pendingCalls
                        else s2.pendingCalls ++ [id] }
      (.promise id, s3, w1 ++ flushed ++ [.callMsg id obj method marshalled])

/-- `getProxy(id)`. -/
def getProxy (s : RpcSocketState) (id : Int) : Option Nat :=
  List.lookup id s.knownProxies

/-- The behaviour of `this.object[method].apply(this.object, args)` for a
plain method call: host code outside the engine, supplied as a parameter.
It may read and write the heap and return a value or throw. -/
def InvokeFn : Type :=
  Nat → String → List Value → Heap → Except RpcError Value × Heap

/-- `RpcStub.prototype._validateCall`: membership in the allow-list. -/
def stubValidate (stub : RpcStub) (method : String) : Bool :=
  stub.methods.contains method

/-- `RpcStub.prototype.get`: validate `"get " + name` and read the
property. -/
def stubGet (stub : RpcStub) (h : Heap) (name : String) : Except RpcError Value :=
  if stubValidate stub ("get " ++ name) then .ok (heapGetProp h stub.object name)
  else .error (.err ("Invalid method " ++ ("get " ++ name)))

/-- `RpcStub.prototype.set`: validate `"get " + name` (not `"set "`: the
source grants read and write jointly) and write the property. -/
def stubSet (stub : RpcStub) (h : Heap) (name : String) (v : Value) :
    Except RpcError Unit × Heap :=
  if stubValidate stub ("get " ++ name) then (.ok (), heapSetProp h stub.object name v)
  else (.error (.err ("Invalid method " ++ ("get " ++ name))), h)

/-- `RpcStub.prototype.call`: validate the method name and invoke it. -/
def stubCall (invoke : InvokeFn) (stub : RpcStub) (h : Heap) (method : String)
    (args : List Value) : Except RpcError Value × Heap :=
  if stubValidate stub method then invoke stub.object method args h
  else (.error (.err ("Invalid method " ++ method)), h)

/-- An inbound `call` message. -/
structure CallMsg where
  id : JsId
  obj : Int
  method : String
  params : Wire
deriving DecidableEq

/-- The body of the `Q.try` block in `_handleCall`: resolve the target
stub, check the params are an array, unmarshal them, and dispatch on the
`"get "`/`"set "` method-name convention; returns the reply value or the
error caught by the promise chain, plus the possibly-updated heap. -/
def handleCallBody (invoke : InvokeFn) (s : RpcSocketState) (msg : CallMsg) :
    Except RpcError Value × Heap :=
  match List.lookup msg.obj s.knownStubIds with
  | none => (.error (.err ("Invalid object 0x" ++ jsHex msg.obj)), s.heap)
  | some oid =>
    match msg.params with
    | .warr params =>
      match List.lookup oid s.knownStubs with
      | none => (.error (.typeErr "stub is not an object"), s.heap)
      | some stub =>
        match unmarshalList s params with
        | .error e => (.error e, s.heap)
        | .ok unmarshalled =>
          if msg.method.take 4 = "get " then
            match unmarshalled with
            | [] => (stubGet stub s.heap (msg.method.drop 4), s.heap)
            | _ => (.error (.err "Wrong number of arguments, expected 0"), s.heap)
          else if msg.method.take 4 = "set " then
            match unmarshalled with
            | [v] =>
              match stubSet stub s.heap (msg.method.drop 4) v with
              | (.ok _, h1) => (.ok .vundefined, h1)
              | (.error e, h1) => (.error e, h1)
            | _ => (.error (.err "Wrong number of arguments, expected 1"), s.heap)
          else stubCall invoke stub s.heap msg.method unmarshalled
    | _ => (.error (.err "Malformed method call"), s.heap)

/-- The `error.name` JS would report for an embedded error. -/
def errName : RpcError → String
  | .err _ => "Error"
  | .typeErr _ => "TypeError"
  | .rangeErr _ => "RangeError"
  | .syntaxErr _ _ _ => "SyntaxError"

/-- The `error.message` of an embedded error. -/
def errMessage : RpcError → String
  | .err m => m
  | .typeErr m => m
  | .rangeErr m => m
  | .syntaxErr m _ _ => m

/-- The `error.fileName` of an embedded error (syntax errors only). -/
def errFileName : RpcError → String
  | .syntaxErr _ f _ => f
  | _ => ""

/-- The `error.lineNumber` of an embedded error (syntax errors only). -/
def errLineNumber : RpcError → Nat
  | .syntaxErr _ _ l => l
  | _ => 0

/-- The error reply `_handleCall` writes: syntax errors carry their
source-location fields, other errors carry `error.message`, and an error
with an empty message falls back to `String(error)`, which for a plain
error object is its name. -/
def errorReplyMsg (id : Nat) (e : RpcError) : Message :=
  if errName e = "SyntaxError" then
    .replyMsg id .wundefined (some "SyntaxError") (errMessage e) (errFileName e) (errLineNumber e)
  else if errMessage e = "" then
    .replyMsg id .wundefined (some (errName e)) "" "" 0
  else
    .replyMsg id .wundefined (some (errMessage e)) "" "" 0

/-- `_handleCall(msg)`: drop the message when `id` is `undefined`; run the
body; with a numeric `id` marshal the result and write a success reply (a
marshal-time throw is caught by the following `.catch`, which then writes
an error reply), or write the formatted error reply; with `id === null`
execute the side effects but never reply. -/
def handleCall (invoke : InvokeFn) (s : RpcSocketState) (msg : CallMsg) :
    RpcSocketState × List Message :=
  match msg.id with
  | .absent => (s, [])
  | .null =>
    let r := handleCallBody invoke s msg
    ({ s with heap := r.2 }, [])
  | .num id =>
    match handleCallBody invoke s msg with
    | (.ok v, h1) =>
      match marshalArgument { s with heap := h1 } v with
      | (.ok wv, s2, w2) => (s2, w2 ++ [.replyMsg id wv none "" "" 0])
      | (.error e, s2, w2) => (s2, w2 ++ [errorReplyMsg id e])
    | (.error e, h1) => ({ s with heap := h1 }, [errorReplyMsg id e])

/-- An inbound `reply` message (absent fields read as their JS defaults). -/
structure ReplyMsg where
  id : JsId
  reply : Wire := .wundefined
  error : Option String := none
  message : String := ""
  fileName : String := ""
  lineNumber : Nat := 0
deriving DecidableEq

/-- How a pending call's future is settled. -/
inductive Settlement where
  | resolved (v : Value)
  | rejected (e : RpcError)
deriving DecidableEq

/-- JS truthiness of the `error` field (`undefined` and `""` are falsy). -/
def errTruthy : Option String → Bool
  | none => false
  | some m => !(m == "")

/-- `_handleReply(msg)`: drop the message when `id` is missing/null or not
a pending call; otherwise remove the pending entry first, then reject with
a reconstructed error when `error` is truthy, else resolve with the
unmarshalled payload — an unmarshalling throw is caught and rejects the
future instead.  The settlement delivered to the future (if any) is
returned alongside the new state; the function is total, so no error
escapes reply dispatch. -/
def handleReply (s : RpcSocketState) (msg : ReplyMsg) :
    RpcSocketState × Option (Nat × Settlement) :=
  match msg.id with
  | .absent => (s, none)
  | .null => (s, none)
  | .num id =>
    if s.pendingCalls.contains id then
      let s1 := { s with pendingCalls := s.pendingCalls.filter (fun x => !(x == id)) }
      if errTruthy msg.error then
        if msg.error = some "SyntaxError" then
          (s1, some (id, .rejected (.syntaxErr msg.message msg.fileName msg.lineNumber)))
        else
          (s1, some (id, .rejected (.err (msg.error.getD ""))))
      else
        match unmarshalArgument s1 msg.reply with
        | .ok v => (s1, some (id, .resolved v))
        | .error e => (s1, some (id, .rejected e))
    else (s, none)

/-- An inbound message, as dispatched by `_handleMessage`. -/
inductive InboundMsg where
  | newObject (obj : Int) (methods : List String)
  | callMsg (m : CallMsg)
  | replyMsg (m : ReplyMsg)
deriving DecidableEq

/-- `_handleMessage(msg)`: a `new-object` announcement for an unknown id
allocates a fresh proxy object (carrying `$rpcId` and a `$free` hook that
deletes it from `knownProxies`) and records it; a repeated announcement is
a no-op; `call` and `reply` messages go to their handlers. -/
def handleMessage (invoke : InvokeFn) (s : RpcSocketState) :
    InboundMsg → RpcSocketState × List Message × Option (Nat × Settlement)
  | .newObject obj _methods =>
    if mapHas s.knownProxies obj then (s, [], none)
    else
      let poid := s.nextOid
      let pd : ObjData := { rpcId := some obj, free := some (.proxyDelete obj) }
      ({ s with heap := heapSet s.heap poid pd,
                nextOid := poid + 1,
                knownProxies := mapSet s.knownProxies obj poid }, [], none)
  | .callMsg m =>
    let r := handleCall invoke s m
    (r.1, r.2, none)
  | .replyMsg m =>
    let r := handleReply s m
    (r.1, [], r.2)

/-- The state built by the `RpcSocket` constructor, over a given heap. -/
def initState (pid : Nat) (heap : Heap) (nextOid : Nat) : RpcSocketState :=
  { heap := heap, knownStubs := [], knownStubIds := [], knownProxies := [],
    pendingCalls := [], inCall := false, newObjects := [], callId := 0,
    ended := false, stubCnt := 0, pid := pid, nextOid := nextOid }

/-! ### Association-list map lemmas -/

theorem lookup_mapSet_self {α β : Type} [BEq α] [LawfulBEq α]
    (m : List (α × β)) (k : α) (v : β) :
    List.lookup k (mapSet m k v) = some v := by
  induction m with
  | nil => simp [mapSet, List.lookup]
  | cons p m ih =>
    cases hp : (p.1 == k) with
    | true => simp [mapSet, hp, List.lookup]
    | false =>
      have hk : (k == p.1) = false := by
        simp only [beq_eq_false_iff_ne] at hp ⊢
        exact fun hkp => hp hkp.symm
      simpa [mapSet, hp, List.lookup, hk] using ih

theorem lookup_filter_none {α β : Type} [BEq α] [LawfulBEq α]
    (m : List (α × β)) (k : α) (p : α × β → Bool)
    (h : List.lookup k m = none) :
    List.lookup k (m.filter p) = none := by
  induction m with
  | nil => simp [List.lookup]
  | cons q m ih =>
    simp only [List.lookup] at h
    cases hq : (k == q.1) with
    | true => rw [hq] at h; cases h
    | false =>
      rw [hq] at h
      by_cases hp : p q = true
      · simpa [List.filter, hp, List.lookup, hq] using ih h
      · simp only [List.filter, Bool.not_eq_true] at hp ⊢
        rw [hp]
        exact ih h

theorem lookup_mapDelete_self {α β : Type} [BEq α] [LawfulBEq α]
    (m : List (α × β)) (k : α) :
    List.lookup k (mapDelete m k) = none := by
  unfold mapDelete
  induction m with
  | nil => simp [List.lookup]
  | cons q m ih =>
    cases hq : (q.1 == k) with
    | true => simpa [List.filter, hq] using ih
    | false =>
      have hk : (k == q.1) = false := by
        simp only [beq_eq_false_iff_ne] at hq ⊢
        exact fun hkq => hq hkq.symm
      simpa [List.filter, hq, List.lookup, hk] using ih

theorem mapHas_eq_isSome {α β : Type} [BEq α] [LawfulBEq α]
    (m : List (α × β)) (k : α) :
    mapHas m k = (List.lookup k m).isSome := by
  unfold mapHas
  induction m with
  | nil => simp [List.lookup]
  | cons q m ih =>
    cases hq : (q.1 == k) with
    | true =>
      have : q.1 = k := by simpa using hq
      simp [List.lookup, this]
    | false =>
      have hk : (k == q.1) = false := by
        simp only [beq_eq_false_iff_ne] at hq ⊢
        exact fun hkq => hq hkq.symm
      simp [List.lookup, hq, hk, ih]

/-! ### Disposal-hook lemmas -/

theorem runFree_knownStubs (hk : FreeHook) (s : RpcSocketState) :
    (runFree hk s).1.knownStubs = s.knownStubs := by
  induction hk generalizing s with
  | user t => rfl
  | stubDelete id => rfl
  | stubChain id prev ih => exact ih _
  | proxyDelete id => rfl

theorem runFree_heap (hk : FreeHook) (s : RpcSocketState) :
    (runFree hk s).1.heap = s.heap := by
  induction hk generalizing s with
  | user t => rfl
  | stubDelete id => rfl
  | stubChain id prev ih => exact ih _
  | proxyDelete id => rfl

theorem runFree_tags (hk : FreeHook) (s : RpcSocketState) :
    (runFree hk s).2 = userTags hk := by
  induction hk generalizing s with
  | user t => rfl
  | stubDelete id => rfl
  | stubChain id prev ih => exact ih _
  | proxyDelete id => rfl

theorem runFree_lookup_none (hk : FreeHook) (s : RpcSocketState) (k : Int)
    (h : List.lookup k s.knownStubIds = none) :
    List.lookup k (runFree hk s).1.knownStubIds = none := by
  induction hk generalizing s with
  | user t => exact h
  | stubDelete id => exact lookup_filter_none _ _ _ h
  | stubChain id prev ih => exact ih _ (lookup_filter_none _ _ _ h)
  | proxyDelete id => exact h

/-! ### Announcement bookkeeping for `call()` ordering -/

/-- The `new-object` announcements generated by the exports minted at
counter values `c0, c0+1, …`, with their method lists. -/
def annsFor (pid c0 : Nat) : List (List String) → List Message
  | [] => []
  | ms :: rest => .newObject (mintId pid c0) ms :: annsFor pid (c0 + 1) rest

theorem annsFor_append (pid : Nat) (m1 : List (List String)) :
    ∀ (c0 : Nat) (m2 : List (List String)),
      annsFor pid c0 m1 ++ annsFor pid (c0 + m1.length) m2 = annsFor pid c0 (m1 ++ m2) := by
  induction m1 with
  | nil => intro c0 m2; simp [annsFor]
  | cons ms m1 ih =>
    intro c0 m2
    have harith : c0 + (m1.length + 1) = (c0 + 1) + m1.length := by omega
    simp only [annsFor, List.length_cons, List.cons_append, List.append_eq, harith]
    rw [ih (c0 + 1) m2]

/-- How a successful marshal step transforms the socket state while the
re-entrancy guard is set: the registry grows, the queued announcements are
extended (in generation order) by one `new-object` message per export
minted, the stub counter advances in step, and the unrelated fields are
untouched. -/
def MarshalShape (s s' : RpcSocketState) (mss : List (List String)) : Prop :=
  s'.inCall = s.inCall ∧ s'.pid = s.pid ∧ s'.ended = s.ended ∧
  s'.callId = s.callId ∧ s'.pendingCalls = s.pendingCalls ∧
  s'.newObjects = s.newObjects ++ annsFor s.pid s.stubCnt mss ∧
  s'.stubCnt = s.stubCnt + mss.length

theorem MarshalShape.refl (s : RpcSocketState) : MarshalShape s s [] := by
  refine ⟨rfl, rfl, rfl, rfl, rfl, ?_, rfl⟩
  simp [annsFor]

theorem MarshalShape.trans {s s1 s2 : RpcSocketState} {m1 m2 : List (List String)}
    (h1 : MarshalShape s s1 m1) (h2 : MarshalShape s1 s2 m2) :
    MarshalShape s s2 (m1 ++ m2) := by
  obtain ⟨a1, b1, c1, d1, e1, f1, g1⟩ := h1
  obtain ⟨a2, b2, c2, d2, e2, f2, g2⟩ := h2
  refine ⟨a2.trans a1, b2.trans b1, c2.trans c1, d2.trans d1, e2.trans e1, ?_, ?_⟩
  · rw [f2, f1, b1, g1, List.append_assoc, annsFor_append]
  · rw [g2, g1, List.length_append]; omega

theorem addStub_shape (s : RpcSocketState) (oid : Nat) (id : Int)
    (s' : RpcSocketState) (ws : List Message)
    (h : addStub s oid = (.ok id, s', ws)) (hin : s.inCall = true) :
    ws = [] ∧ ∃ mss, MarshalShape s s' mss := by
  unfold addStub at h
  cases hl : List.lookup oid s.knownStubs with
  | some stub =>
    rw [hl] at h
    injection h with h1 h23
    injection h23 with h2 h3
    subst h2; subst h3
    exact ⟨rfl, [], MarshalShape.refl s⟩
  | none =>
    rw [hl] at h
    cases hm : (heapGet s.heap oid).rpcMethods with
    | none => rw [hm] at h; cases h
    | some methods =>
      rw [hm] at h
      by_cases hc : 2 ^ 24 ≤ s.stubCnt
      · simp only [hc, if_true] at h; cases h
      · simp only [hc, if_false] at h
        simp only [sendMetadata, hin, if_true] at h
        injection h with h1 h23
        injection h23 with h2 h3
        subst h2; subst h3
        refine ⟨rfl, [methods], ?_, ?_, ?_, ?_, ?_, ?_, ?_⟩ <;>
          simp [annsFor, hin]

mutual

theorem marshalArgument_shape (s : RpcSocketState) (v : Value) (w : Wire)
    (s' : RpcSocketState) (ws : List Message)
    (h : marshalArgument s v = (.ok w, s', ws)) (hin : s.inCall = true) :
    ws = [] ∧ ∃ mss, MarshalShape s s' mss := by
  cases v with
  | vundefined =>
    simp only [marshalArgument] at h
    injection h with h1 h23; injection h23 with h2 h3
    subst h2; subst h3
    exact ⟨rfl, [], MarshalShape.refl s⟩
  | vnull =>
    simp only [marshalArgument] at h
    injection h with h1 h23; injection h23 with h2 h3
    subst h2; subst h3
    exact ⟨rfl, [], MarshalShape.refl s⟩
  | vbool b =>
    simp only [marshalArgument] at h
    injection h with h1 h23; injection h23 with h2 h3
    subst h2; subst h3
    exact ⟨rfl, [], MarshalShape.refl s⟩
  | vnum n =>
    simp only [marshalArgument] at h
    injection h with h1 h23; injection h23 with h2 h3
    subst h2; subst h3
    exact ⟨rfl, [], MarshalShape.refl s⟩
  | vstr t =>
    simp only [marshalArgument] at h
    injection h with h1 h23; injection h23 with h2 h3
    subst h2; subst h3
    exact ⟨rfl, [], MarshalShape.refl s⟩
  | varr elems =>
    rcases hml : marshalList s elems with ⟨r, s1, w1⟩
    simp only [marshalArgument, hml] at h
    cases r with
    | error e => simp at h
    | ok ws1 =>
      injection h with h1 h23; injection h23 with h2 h3
      exact h3 ▸ h2 ▸ marshalList_shape s elems ws1 s1 w1 hml hin
  | vobj oid =>
    cases hid : (heapGet s.heap oid).rpcId with
    | some id =>
      simp only [marshalArgument, hid] at h
      by_cases hhas : mapHas s.knownProxies id = true
      · simp only [hhas, if_true] at h
        injection h with h1 h23; injection h23 with h2 h3
        exact h3 ▸ h2 ▸ ⟨rfl, [], MarshalShape.refl s⟩
      · simp [hhas] at h
    | none =>
      cases hm : (heapGet s.heap oid).rpcMethods with
      | some ms =>
        rcases has : addStub s oid with ⟨r, s1, w1⟩
        simp only [marshalArgument, hid, hm, has] at h
        cases r with
        | error e => simp at h
        | ok id2 =>
          injection h with h1 h23; injection h23 with h2 h3
          exact h3 ▸ h2 ▸ addStub_shape s oid id2 s1 w1 has hin
      | none =>
        simp only [marshalArgument, hid, hm] at h
        injection h with h1 h23; injection h23 with h2 h3
        exact h3 ▸ h2 ▸ ⟨rfl, [], MarshalShape.refl s⟩

theorem marshalList_shape (s : RpcSocketState) (l : List Value) (wl : List Wire)
    (s' : RpcSocketState) (ws : List Message)
    (h : marshalList s l = (.ok wl, s', ws)) (hin : s.inCall = true) :
    ws = [] ∧ ∃ mss, MarshalShape s s' mss := by
  cases l with
  | nil =>
    simp only [marshalList] at h
    injection h with h1 h23; injection h23 with h2 h3
    subst h2; subst h3
    exact ⟨rfl, [], MarshalShape.refl s⟩
  | cons v vs =>
    rcases hma : marshalArgument s v with ⟨r1, s1, w1⟩
    simp only [marshalList, hma] at h
    cases r1 with
    | error e => simp at h
    | ok w =>
      rcases hml : marshalList s1 vs with ⟨r2, s2, w2⟩
      simp only [hml] at h
      cases r2 with
      | error e => simp at h
      | ok wl2 =>
        injection h with h1 h23; injection h23 with h2 h3
        obtain ⟨hw1, mss1, hs1⟩ := marshalArgument_shape s v w s1 w1 hma hin
        have hin1 : s1.inCall = true := by rw [hs1.1, hin]
        obtain ⟨hw2, mss2, hs2⟩ := marshalList_shape s1 vs wl2 s2 w2 hml hin1
        refine ⟨?_, mss1 ++ mss2, h2 ▸ hs1.trans hs2⟩
        rw [← h3, hw1, hw2]
        rfl

end

mutual

/-- The value grammar of the round-trip property: primitives, `null` and
`undefined`, arrays of such values, the proxy registered in `knownProxies`
for its id (with that id not shadowed by a local export), and objects
already exported (present in `knownStubs` with their id in
`knownStubIds`). -/
def roundtrippable (s : RpcSocketState) : Value → Bool
  | .vundefined => true
  | .vnull => true
  | .vbool _ => true
  | .vnum _ => true
  | .vstr _ => true
  | .varr l => roundtrippableList s l
  | .vobj oid =>
    match (heapGet s.heap oid).rpcId with
    | some id =>
      List.lookup id s.knownProxies == some oid &&
      List.lookup id s.knownStubIds == none
    | none =>
      match (heapGet s.heap oid).rpcMethods with
      | some _ =>
        match List.lookup oid s.knownStubs with
        | some stub => List.lookup stub.rpcId s.knownStubIds == some oid
        | none => false
      | none => false

/-- Element-wise round-trip grammar for argument lists. -/
def roundtrippableList (s : RpcSocketState) : List Value → Bool
  | [] => true
  | v :: vs => roundtrippable s v && roundtrippableList s vs

end

mutual

theorem roundtrip_val (s : RpcSocketState) (v : Value)
    (h : roundtrippable s v = true) :
    ∃ w, marshalArgument s v = (.ok w, s, []) ∧ unmarshalArgument s w = .ok v := by
  cases v with
  | vundefined => exact ⟨.wundefined, rfl, rfl⟩
  | vnull => exact ⟨.wnull, rfl, rfl⟩
  | vbool b => exact ⟨.wbool b, rfl, rfl⟩
  | vnum n => exact ⟨.wnum n, rfl, rfl⟩
  | vstr t => exact ⟨.wstr t, rfl, rfl⟩
  | varr l =>
    obtain ⟨ws, h1, h2⟩ := roundtrip_list s l (by simpa [roundtrippable] using h)
    exact ⟨.warr ws, by simp [marshalArgument, h1], by simp [unmarshalArgument, h2]⟩
  | vobj oid =>
    cases hid : (heapGet s.heap oid).rpcId with
    | some id =>
      simp only [roundtrippable, hid, Bool.and_eq_true, beq_iff_eq] at h
      obtain ⟨hpx, hsid⟩ := h
      refine ⟨.wref id, ?_, ?_⟩
      · have hhas : mapHas s.knownProxies id = true := by
          rw [mapHas_eq_isSome, hpx]; rfl
        simp [marshalArgument, hid, hhas]
      · simp [unmarshalArgument, hsid, hpx]
    | none =>
      cases hm : (heapGet s.heap oid).rpcMethods with
      | none => simp [roundtrippable, hid, hm] at h
      | some ms =>
        cases hstub : List.lookup oid s.knownStubs with
        | none => simp [roundtrippable, hid, hm, hstub] at h
        | some stub =>
          simp only [roundtrippable, hid, hm, hstub, beq_iff_eq] at h
          refine ⟨.wref stub.rpcId, ?_, ?_⟩
          · simp [marshalArgument, hid, hm, addStub, hstub]
          · simp [unmarshalArgument, h]

theorem roundtrip_list (s : RpcSocketState) (l : List Value)
    (h : roundtrippableList s l = true) :
    ∃ ws, marshalList s l = (.ok ws, s, []) ∧ unmarshalList s ws = .ok l := by
  cases l with
  | nil => exact ⟨[], rfl, rfl⟩
  | cons v vs =>
    simp only [roundtrippableList, Bool.and_eq_true] at h
    obtain ⟨w, hm, hu⟩ := roundtrip_val s v h.1
    obtain ⟨ws, hml, hul⟩ := roundtrip_list s vs h.2
    exact ⟨w :: ws, by simp [marshalList, hm, hml], by simp [unmarshalList, hu, hul]⟩

end

mutual

theorem unmarshalArgument_maps (s t : RpcSocketState) (w : Wire)
    (h1 : t.knownStubIds = s.knownStubIds) (h2 : t.knownProxies = s.knownProxies) :
    unmarshalArgument t w = unmarshalArgument s w := by
  cases w with
  | wundefined => rfl
  | wnull => rfl
  | wbool b => rfl
  | wnum n => rfl
  | wstr u => rfl
  | warr elems => simp [unmarshalArgument, unmarshalList_maps s t elems h1 h2]
  | wref id => simp [unmarshalArgument, h1, h2]
  | wobj oid => rfl

theorem unmarshalList_maps (s t : RpcSocketState) (ws : List Wire)
    (h1 : t.knownStubIds = s.knownStubIds) (h2 : t.knownProxies = s.knownProxies) :
    unmarshalList t ws = unmarshalList s ws := by
  cases ws with
  | nil => rfl
  | cons w ws =>
    simp [unmarshalList, unmarshalArgument_maps s t w h1 h2,
      unmarshalList_maps s t ws h1 h2]

end

/-! ### Example states used by the concrete witnesses and counterexamples -/

/-- A host invocation function that knows no methods (the claims below
never reach the plain-method branch with it). -/
def invoke0 : InvokeFn := fun _ _ _ h => (.error (.err "no host method"), h)

/-- A socket with one outstanding call (id 5). -/
def exPendC1 : RpcSocketState := { initState 1 [] 0 with pendingCalls := [5] }

/-- A socket whose heap holds, at address 3, a proxy-like object carrying
`$rpcId = 0x63` that is not in this socket's `knownProxies`. -/
def exForeignC2 : RpcSocketState := initState 1 [(3, { rpcId := some 99 })] 0

/-- A freshly constructed socket over an empty heap. -/
def exIdleC3 : RpcSocketState := initState 1 [] 0

/-- A socket whose heap holds, at address 1, an exportable object that
already carries a host disposal hook (tag 7). -/
def exHostC4 : RpcSocketState :=
  initState 1 [(1, { rpcMethods := some ["frob"], free := some (.user 7) })] 0

/-- `exHostC4` after exporting object 1. -/
def exExportedC4 : RpcSocketState := (addStub exHostC4 1).2.1

/-- A socket that has exported object 1 (id `0x1000000`) and imported a
proxy (heap address 3, remote id 99). -/
def exBothC5 : RpcSocketState :=
  { (addStub (initState 1 [(1, { rpcMethods := some ["frob"] }), (3, { rpcId := some 99 })] 0) 1).2.1
    with knownProxies := [(99, 3)] }

/-- A grammar-conforming value over `exBothC5`: an array mixing primitives,
the exported object and the imported proxy. -/
def exValC5 : Value := .varr [.vnum 5, .vobj 1, .vobj 3, .vnull, .vstr "hi"]

/-- A socket with one not-yet-exported exportable object at address 1. -/
def exFreshC6 : RpcSocketState := initState 1 [(1, { rpcMethods := some ["frob"] })] 0

/-- A socket that exported, as id `0x1000000`, an object with one
readable/writable property `x` (allow-list entry `"get x"`). -/
def exPropC7 : RpcSocketState :=
  (addStub (initState 1 [(1, { rpcMethods := some ["get x"], props := [("x", .vnum 5)] })] 0) 1).2.1

/-- The stub `exPropC7` holds for object 1. -/
def exStubC7 : RpcStub := ⟨16777216, 1, ["get x"]⟩

/-- An endpoint in a process with pid 1, holding one exportable object. -/
def exPidOneC8 : RpcSocketState := initState 1 [(1, { rpcMethods := some ["m"] })] 0

/-- An endpoint in a distinct process with pid 257, holding one exportable
object. -/
def exPidBigC8 : RpcSocketState := initState 257 [(1, { rpcMethods := some ["m"] })] 0

/-- A socket with one not-yet-exported exportable object at address 1. -/
def exFreshC9 : RpcSocketState := initState 1 [(1, { rpcMethods := some ["m"] })] 0

/-- A socket with one outstanding call (id 4) and empty registries, so the
reference id 123 is known neither as a stub nor as a proxy. -/
def exPendC10 : RpcSocketState := { initState 1 [] 0 with pendingCalls := [4] }

/-! ### C1 — closure semantics -/

/-- C1, counterexample.  The claim says that after the channel reports
closure every pending call is rejected and the pending-call table is
cleared.  In the code the `'close'` listener only sets `_ended`:
at a concrete state with pending call 5, the table after the close event
is untouched and still holds 5. -/
theorem claim_C1_counterexample :
    (handleSocketClose exPendC1).pendingCalls = exPendC1.pendingCalls ∧
    exPendC1.pendingCalls = [5] :=
  ⟨rfl, rfl⟩

/-- C1, amended.  Rejection of every pending call (with a socket-closed
error, clearing the table) happens on the channel's `'error'` event, not on
`'close'`; the `'close'` event sets the ended flag, after which any
`call()` returns an immediately rejected future and writes nothing. -/
theorem claim_C1 (s : RpcSocketState) (obj : Int) (method : String)
    (args : List Value) (hin : s.inCall = false) :
    (handleSocketError s).1.pendingCalls = [] ∧
    (handleSocketError s).2 =
      s.pendingCalls.map (fun i => (i, RpcError.err "Socket closed")) ∧
    call (handleSocketClose s) obj method args =
      (.rejected (.err "Socket closed"), handleSocketClose s, []) := by
  refine ⟨rfl, rfl, ?_⟩
  simp [call, handleSocketClose, hin]

/-- C1, witness at the concrete state `exPendC1`. -/
theorem claim_C1_witness :
    (handleSocketError exPendC1).1.pendingCalls = [] ∧
    (handleSocketError exPendC1).2 =
      exPendC1.pendingCalls.map (fun i => (i, RpcError.err "Socket closed")) ∧
    call (handleSocketClose exPendC1) 42 "m" [] =
      (.rejected (.err "Socket closed"), handleSocketClose exPendC1, []) :=
  claim_C1 exPendC1 42 "m" [] (by decide)

/-! ### C2 — no synchronous failures from `call()` -/

/-- C2, counterexample.  The claim says `call()` never throws and delivers
every construction-time failure as a rejected future.  Marshalling the
foreign proxy at heap address 3 of `exForeignC2` makes `call()` throw the
marshal error synchronously (outcome `thrown`, not `rejected`). -/
theorem claim_C2_counterexample :
    (call exForeignC2 42 "m" [.vobj 3]).1 =
      .thrown (.err "Invalid object 0x63, likely a proxy from a different socket") := by
  decide

/-- C2, amended.  A marshal-time error propagates out of `call()` as a
synchronously thrown exception (with the partial state at the throw); only
calling after the channel has ended returns an immediately rejected future,
with no write and no state change. -/
theorem claim_C2 (s : RpcSocketState) (obj : Int) (method : String)
    (args : List Value) (e : RpcError) (s1 : RpcSocketState) (w1 : List Message)
    (hin : s.inCall = false) :
    (s.ended = false →
      marshalList { s with inCall := true } args = (.error e, s1, w1) →
      call s obj method args = (.thrown e, s1, w1)) ∧
    (s.ended = true →
      call s obj method args = (.rejected (.err "Socket closed"), s, [])) := by
  constructor
  · intro hend hm
    rw [hend] at hm
    simp [call, hin, hend, hm]
  · intro hend
    simp [call, hin, hend]

/-- C2, witness: calling on an ended socket yields the rejected future. -/
theorem claim_C2_witness :
    call { exIdleC3 with ended := true } 42 "m" [] =
      (.rejected (.err "Socket closed"), { exIdleC3 with ended := true }, []) :=
  (claim_C2 { exIdleC3 with ended := true } 42 "m" []
    (.err "unused") { exIdleC3 with ended := true } [] (by decide)).2 (by decide)

/-! ### C3 — re-entrancy guard -/

/-- C3.  While a call is mid-construction the guard is set, and any
`call()` from such a state throws the re-entrancy error with no state
change and no write (first conjunct, for every guarded state); hence the
outer call, resuming from the unchanged state, completes exactly as coded:
it flushes the queued announcements, writes its call message, registers its
pending entry and clears the guard (second conjunct). -/
theorem claim_C3 (s : RpcSocketState) (obj obj2 : Int) (method method2 : String)
    (args args2 : List Value) (ps : List Wire) (s1 : RpcSocketState)
    (w1 : List Message) (hin : s.inCall = false) (hend : s.ended = false)
    (hm : marshalList { s with inCall := true } args = (.ok ps, s1, w1)) :
    (∀ t : RpcSocketState, t.inCall = true →
      call t obj2 method2 args2 =
        (.thrown (.err "Re-entrant calls are not supported"), t, [])) ∧
    call s obj method args =
      (.promise s1.callId,
       { s1 with newObjects := [], inCall := false, callId := s1.callId + 1,
                 pendingCalls := if s1.pendingCalls.contains s1.callId then s1.pendingCalls
                                 else s1.pendingCalls ++ [s1.callId] },
       w1 ++ s1.newObjects ++ [.callMsg s1.callId obj method ps]) := by
  constructor
  · intro t ht
    simp [call, ht]
  · rw [hend] at hm
    simp [call, hin, hend, hm]

/-- C3, witness at the fresh socket `exIdleC3` with an empty argument
list. -/
theorem claim_C3_witness :
    (∀ t : RpcSocketState, t.inCall = true →
      call t 7 "n" [] =
        (.thrown (.err "Re-entrant calls are not supported"), t, [])) ∧
    call exIdleC3 42 "m" [] =
      (.promise ({ exIdleC3 with inCall := true } : RpcSocketState).callId,
       { ({ exIdleC3 with inCall := true } : RpcSocketState) with
           newObjects := [], inCall := false,
           callId := ({ exIdleC3 with inCall := true } : RpcSocketState).callId + 1,
           pendingCalls :=
             if ({ exIdleC3 with inCall := true } : RpcSocketState).pendingCalls.contains
                  ({ exIdleC3 with inCall := true } : RpcSocketState).callId then
               ({ exIdleC3 with inCall := true } : RpcSocketState).pendingCalls
             else ({ exIdleC3 with inCall := true } : RpcSocketState).pendingCalls ++
               [({ exIdleC3 with inCall := true } : RpcSocketState).callId] },
       [] ++ ({ exIdleC3 with inCall := true } : RpcSocketState).newObjects ++
         [.callMsg ({ exIdleC3 with inCall := true } : RpcSocketState).callId 42 "m" []]) :=
  claim_C3 exIdleC3 42 7 "m" "n" [] [] [] { exIdleC3 with inCall := true } []
    (by decide) (by decide) rfl

/-! ### C4 — disposal-hook semantics -/

theorem heapGet_heapSet_self (h : Heap) (oid : Nat) (d : ObjData) :
    heapGet (heapSet h oid d) oid = d := by
  unfold heapGet heapSet
  rw [lookup_mapSet_self]
  rfl

theorem heapGet_makeFree_self (h : Heap) (oid : Nat) (id : Int) :
    heapGet (makeFree h oid id) oid =
      { heapGet h oid with free := some (match (heapGet h oid).free with
          | some prev => .stubChain id prev
          | none => .stubDelete id) } := by
  unfold makeFree
  cases hf : (heapGet h oid).free <;> simp [heapGet_heapSet_self, hf]

theorem sendMetadata_fields (stub : RpcStub) (u : RpcSocketState) :
    (sendMetadata stub u).1.knownStubs = u.knownStubs ∧
    (sendMetadata stub u).1.knownStubIds = u.knownStubIds ∧
    (sendMetadata stub u).1.heap = u.heap := by
  unfold sendMetadata
  by_cases h : u.inCall = true <;> simp [h]

/-- C4, counterexample.  The claim says the disposal hook removes the
object from `exportedByObject` as well.  Concretely: export object 1 of
`exHostC4`, invoke the installed `$free` hook — the id is gone from
`knownStubIds` and the prior host hook (tag 7) ran, but the object is still
present in `knownStubs`, which `$free` never touches. -/
theorem claim_C4_counterexample :
    (List.lookup 1 (invokeFree exExportedC4 1).1.knownStubs).isSome = true ∧
    (invokeFree exExportedC4 1).2 = [7] ∧
    List.lookup 16777216 (invokeFree exExportedC4 1).1.knownStubIds = none := by
  decide

/-- C4, amended.  Invoking the disposal hook that `addStub` installed on a
freshly exported object removes the object's reference id from
`exportedById` (`knownStubIds`) and still invokes any disposal hook that
was present before export; the `exportedByObject` weak cache
(`knownStubs`) is not touched — the stub entry remains. -/
theorem claim_C4 (s : RpcSocketState) (oid : Nat) (ms : List String)
    (hnew : List.lookup oid s.knownStubs = none)
    (hms : (heapGet s.heap oid).rpcMethods = some ms)
    (hcap : s.stubCnt < 2 ^ 24) :
    (addStub s oid).1 = .ok (mintId s.pid s.stubCnt) ∧
    List.lookup oid (invokeFree (addStub s oid).2.1 oid).1.knownStubs =
      some ⟨mintId s.pid s.stubCnt, oid, ms⟩ ∧
    List.lookup (mintId s.pid s.stubCnt)
      (invokeFree (addStub s oid).2.1 oid).1.knownStubIds = none ∧
    (invokeFree (addStub s oid).2.1 oid).2 =
      (match (heapGet s.heap oid).free with
       | some prev => userTags prev
       | none => []) := by
  have hnc : ¬ (2 ^ 24 ≤ s.stubCnt) := by omega
  have hmk : addStub s oid =
      (.ok (mintId s.pid s.stubCnt),
       (sendMetadata ⟨mintId s.pid s.stubCnt, oid, ms⟩
         { s with stubCnt := s.stubCnt + 1,
                  heap := makeFree s.heap oid (mintId s.pid s.stubCnt),
                  knownStubs := mapSet s.knownStubs oid ⟨mintId s.pid s.stubCnt, oid, ms⟩,
                  knownStubIds := mapSet s.knownStubIds (mintId s.pid s.stubCnt) oid }).1,
       (sendMetadata ⟨mintId s.pid s.stubCnt, oid, ms⟩
         { s with stubCnt := s.stubCnt + 1,
                  heap := makeFree s.heap oid (mintId s.pid s.stubCnt),
                  knownStubs := mapSet s.knownStubs oid ⟨mintId s.pid s.stubCnt, oid, ms⟩,
                  knownStubIds := mapSet s.knownStubIds (mintId s.pid s.stubCnt) oid }).2) := by
    simp only [addStub, hnew, hms, hnc, if_false]
  rw [hmk]
  obtain ⟨hks, hksi, hh⟩ := sendMetadata_fields
    (⟨mintId s.pid s.stubCnt, oid, ms⟩ : RpcStub)
    { s with stubCnt := s.stubCnt + 1,
             heap := makeFree s.heap oid (mintId s.pid s.stubCnt),
             knownStubs := mapSet s.knownStubs oid ⟨mintId s.pid s.stubCnt, oid, ms⟩,
             knownStubIds := mapSet s.knownStubIds (mintId s.pid s.stubCnt) oid }
  refine ⟨rfl, ?_⟩
  cases hf : (heapGet s.heap oid).free with
  | none =>
    have hfree : (heapGet (sendMetadata ⟨mintId s.pid s.stubCnt, oid, ms⟩
        { s with stubCnt := s.stubCnt + 1,
                 heap := makeFree s.heap oid (mintId s.pid s.stubCnt),
                 knownStubs := mapSet s.knownStubs oid ⟨mintId s.pid s.stubCnt, oid, ms⟩,
                 knownStubIds := mapSet s.knownStubIds (mintId s.pid s.stubCnt) oid }).1.heap
        oid).free = some (.stubDelete (mintId s.pid s.stubCnt)) := by
      rw [hh]
      simp only [heapGet_makeFree_self, hf]
    simp only [invokeFree, hfree, runFree]
    refine ⟨?_, ?_, trivial⟩
    · rw [hks, lookup_mapSet_self]
    · exact lookup_mapDelete_self _ _
  | some prev =>
    have hfree : (heapGet (sendMetadata ⟨mintId s.pid s.stubCnt, oid, ms⟩
        { s with stubCnt := s.stubCnt + 1,
                 heap := makeFree s.heap oid (mintId s.pid s.stubCnt),
                 knownStubs := mapSet s.knownStubs oid ⟨mintId s.pid s.stubCnt, oid, ms⟩,
                 knownStubIds := mapSet s.knownStubIds (mintId s.pid s.stubCnt) oid }).1.heap
        oid).free = some (.stubChain (mintId s.pid s.stubCnt) prev) := by
      rw [hh]
      simp only [heapGet_makeFree_self, hf]
    simp only [invokeFree, hfree, runFree]
    refine ⟨?_, ?_, ?_⟩
    · rw [runFree_knownStubs]
      rw [hks, lookup_mapSet_self]
    · exact runFree_lookup_none _ _ _ (lookup_mapDelete_self _ _)
    · rw [runFree_tags]

/-- C4, witness at the concrete state `exHostC4` (object 1, prior host
hook tag 7). -/
theorem claim_C4_witness :
    (addStub exHostC4 1).1 = .ok (mintId exHostC4.pid exHostC4.stubCnt) ∧
    List.lookup 1 (invokeFree (addStub exHostC4 1).2.1 1).1.knownStubs =
      some ⟨mintId exHostC4.pid exHostC4.stubCnt, 1, ["frob"]⟩ ∧
    List.lookup (mintId exHostC4.pid exHostC4.stubCnt)
      (invokeFree (addStub exHostC4 1).2.1 1).1.knownStubIds = none ∧
    (invokeFree (addStub exHostC4 1).2.1 1).2 =
      (match (heapGet exHostC4.heap 1).free with
       | some prev => userTags prev
       | none => []) :=
  claim_C4 exHostC4 1 ["frob"] (by decide) (by decide) (by decide)

/-! ### C5 — marshal/unmarshal round-trip -/

/-- C5.  For every value in the round-trip grammar (primitives, arrays,
proxies registered for their id, already-exported objects), marshalling
succeeds without changing the state or writing, and unmarshalling the wire
value restores the value exactly — identity (the heap address) is preserved
for proxies and exported objects, structure for primitives and arrays. -/
theorem claim_C5 (s : RpcSocketState) (v : Value)
    (h : roundtrippable s v = true) :
    ∃ w, marshalArgument s v = (.ok w, s, []) ∧ unmarshalArgument s w = .ok v :=
  roundtrip_val s v h

/-- C5, witness: a concrete array mixing primitives, an exported object
and an imported proxy over `exBothC5`. -/
theorem claim_C5_witness :
    roundtrippable exBothC5 exValC5 = true ∧
    (∃ w, marshalArgument exBothC5 exValC5 = (.ok w, exBothC5, []) ∧
      unmarshalArgument exBothC5 w = .ok exValC5) :=
  ⟨by decide, claim_C5 exBothC5 exValC5 (by decide)⟩

/-! ### C6 — announcement ordering within one `call()` -/

/-- C6.  A `call()` that completes with a pending future writes exactly the
`new-object` announcements generated by the exports its marshalling minted
— one per export, in generation order (`annsFor` lists them at consecutive
counter values) — followed by the single `call` message; the number of
announcements equals the advance of the export counter. -/
theorem claim_C6 (s : RpcSocketState) (obj : Int) (method : String)
    (args : List Value) (cid : Nat) (s' : RpcSocketState) (w : List Message)
    (hin : s.inCall = false) (hend : s.ended = false) (hq : s.newObjects = [])
    (h : call s obj method args = (.promise cid, s', w)) :
    ∃ mss ps, w = annsFor s.pid s.stubCnt mss ++ [.callMsg cid obj method ps] ∧
      s'.stubCnt = s.stubCnt + mss.length ∧ cid = s.callId := by
  rcases hml : marshalList { s with inCall := true } args with ⟨r, s1, w1⟩
  unfold call at h
  rw [hin] at h
  simp only [Bool.false_eq_true, if_false] at h
  rw [hend] at h hml
  simp only [Bool.false_eq_true, if_false] at h
  rw [hml] at h
  cases r with
  | error e => simp at h
  | ok ps =>
    obtain ⟨hw1, mss, ha, hb, hc, hd, he, hf, hg⟩ :=
      marshalList_shape _ args ps s1 w1 hml rfl
    simp only [Prod.mk.injEq] at h
    obtain ⟨h1, h2, h3⟩ := h
    injection h1 with hcid
    refine ⟨mss, ps, ?_, ?_, ?_⟩
    · rw [← h3, hw1, hf, hcid]
      simp [hq]
    · rw [← h2]
      show s1.stubCnt = s.stubCnt + mss.length
      rw [hg]
    · rw [← hcid, hd]

/-- C6, witness: a call on `exFreshC6` exporting one object writes its
`new-object` announcement and then the call message. -/
theorem claim_C6_witness :
    ∃ mss ps,
      (call exFreshC6 42 "m" [.vobj 1]).2.2 =
        annsFor exFreshC6.pid exFreshC6.stubCnt mss ++ [.callMsg 0 42 "m" ps] ∧
      (call exFreshC6 42 "m" [.vobj 1]).2.1.stubCnt = exFreshC6.stubCnt + mss.length ∧
      0 = exFreshC6.callId :=
  claim_C6 exFreshC6 42 "m" [.vobj 1] 0
    (call exFreshC6 42 "m" [.vobj 1]).2.1
    (call exFreshC6 42 "m" [.vobj 1]).2.2
    (by decide) (by decide) (by decide) (by decide)

/-! ### C7 — property access convention in inbound dispatch -/

/-- C7.  For an inbound call on a registered stub, with `X` the property
name: a `"set X"` call with exactly one (unmarshallable) parameter writes
the property if and only if the allow-list holds the entry `"get X"`
(presence of a literal `"set X"` entry is irrelevant), replying success,
and otherwise replies the method-validation error with the target object
untouched; a `"set X"` call with zero or at least two parameters replies
the arity error and leaves the state unchanged; a `"get X"` call with zero
parameters reads the property under the same `"get X"` entry (replying its
marshalled value) and fails the same way otherwise; a `"get X"` call with a
parameter replies the arity error and changes nothing. -/
theorem claim_C7 (invoke : InvokeFn) (s : RpcSocketState) (objId : Int)
    (oid : Nat) (stub : RpcStub) (X : String) (rid : Nat)
    (hobj : List.lookup objId s.knownStubIds = some oid)
    (hstub : List.lookup oid s.knownStubs = some stub)
    (hset1 : ("set " ++ X).take 4 = "set ") (hset3 : ("set " ++ X).drop 4 = X)
    (hget1 : ("get " ++ X).take 4 = "get ") (hget2 : ("get " ++ X).drop 4 = X) :
    (∀ w v, unmarshalArgument s w = .ok v →
      handleCall invoke s ⟨.num rid, objId, "set " ++ X, .warr [w]⟩ =
        if stub.methods.contains ("get " ++ X) then
          ({ s with heap := heapSetProp s.heap stub.object X v },
           [.replyMsg rid .wundefined none "" "" 0])
        else (s, [errorReplyMsg rid (.err ("Invalid method " ++ ("get " ++ X)))])) ∧
    (handleCall invoke s ⟨.num rid, objId, "set " ++ X, .warr []⟩ =
       (s, [errorReplyMsg rid (.err "Wrong number of arguments, expected 1")])) ∧
    (∀ w1 w2 rest v1 v2 vs,
      unmarshalArgument s w1 = .ok v1 → unmarshalArgument s w2 = .ok v2 →
      unmarshalList s rest = .ok vs →
      handleCall invoke s ⟨.num rid, objId, "set " ++ X, .warr (w1 :: w2 :: rest)⟩ =
        (s, [errorReplyMsg rid (.err "Wrong number of arguments, expected 1")])) ∧
    (∀ wv, marshalArgument s (heapGetProp s.heap stub.object X) = (.ok wv, s, []) →
      handleCall invoke s ⟨.num rid, objId, "get " ++ X, .warr []⟩ =
        if stub.methods.contains ("get " ++ X) then
          (s, [.replyMsg rid wv none "" "" 0])
        else (s, [errorReplyMsg rid (.err ("Invalid method " ++ ("get " ++ X)))])) ∧
    (∀ w v, unmarshalArgument s w = .ok v →
      handleCall invoke s ⟨.num rid, objId, "get " ++ X, .warr [w]⟩ =
        (s, [errorReplyMsg rid (.err "Wrong number of arguments, expected 0")])) := by
  have hsg : ¬ (("set " ++ X).take 4 = "get ") := by
    rw [hset1]; decide
  have hne : ¬ (("set " : String) = "get ") := by decide
  refine ⟨?_, ?_, ?_, ?_, ?_⟩
  · intro w v hw
    simp only [handleCall, handleCallBody, hobj, hstub, unmarshalList, hw,
      hsg, hset1, hset3, if_false, if_true, stubSet, stubValidate]
    by_cases hc : ("get " ++ X) ∈ stub.methods
    · simp [hc, marshalArgument]
    · simp [hc]
  · simp [handleCall, handleCallBody, hobj, hstub, unmarshalList,
      hsg, hset1, hne]
  · intro w1 w2 rest v1 v2 vs hw1 hw2 hrest
    simp [handleCall, handleCallBody, hobj, hstub, unmarshalList,
      hw1, hw2, hrest, hsg, hset1, hne]
  · intro wv hwv
    simp only [handleCall, handleCallBody, hobj, hstub, unmarshalList,
      hget1, if_true, stubGet, stubValidate, hget2]
    by_cases hc : ("get " ++ X) ∈ stub.methods
    · simp [hc, hwv]
    · simp [hc]
  · intro w v hw
    simp [handleCall, handleCallBody, hobj, hstub, unmarshalList, hw, hget1]

/-- C7, witness at `exPropC7`: `"set x"` with one parameter writes `x`
under the allow-list entry `"get x"`. -/
theorem claim_C7_witness :
    handleCall invoke0 exPropC7 ⟨.num 9, 16777216, "set " ++ "x", .warr [.wnum 7]⟩ =
      if exStubC7.methods.contains ("get " ++ "x") then
        ({ exPropC7 with heap := heapSetProp exPropC7.heap exStubC7.object "x" (.vnum 7) },
         [.replyMsg 9 .wundefined none "" "" 0])
      else (exPropC7, [errorReplyMsg 9 (.err ("Invalid method " ++ ("get " ++ "x")))]) :=
  (claim_C7 invoke0 exPropC7 16777216 1 exStubC7 "x" 9 (by decide) (by decide)
    (by decide) (by decide) (by decide) (by decide)).1 (.wnum 7) (.vnum 7) (by decide)

/-! ### C8 — reference-id uniqueness -/

theorem toInt32_congr (x y : Int) (h : x % 2 ^ 32 = y % 2 ^ 32) :
    toInt32 x = toInt32 y := by
  unfold toInt32
  omega

/-- The minted id prefix only sees the pid modulo 256: the JS `<<` operator
truncates `pid << 24` to 32 bits. -/
theorem jsShl24_pidMod (p : Nat) :
    jsShl24 p = toInt32 (((p % 256 : Nat) : Int) * 2 ^ 24) := by
  unfold jsShl24
  apply toInt32_congr
  have hA : toInt32 (p : Int) * 2 ^ 24 % 2 ^ 32 = (p : Int) * 2 ^ 24 % 2 ^ 32 := by
    have h1 : toInt32 (p : Int) =
        (p : Int) + 2 ^ 32 * (-(((p : Int) + 2 ^ 31) / 2 ^ 32)) := by
      unfold toInt32
      omega
    rw [h1, add_mul, mul_assoc, Int.add_mul_emod_self_left]
  have hB : (p : Int) * 2 ^ 24 % 2 ^ 32 = ((p % 256 : Nat) : Int) * 2 ^ 24 % 2 ^ 32 := by
    have hC : ((p % 256 : Nat) : Int) + 256 * ((p / 256 : Nat) : Int) = (p : Int) := by
      exact_mod_cast Nat.mod_add_div p 256
    have hD : (p : Int) * 2 ^ 24 =
        ((p % 256 : Nat) : Int) * 2 ^ 24 + 2 ^ 32 * ((p / 256 : Nat) : Int) := by
      rw [← hC]; ring
    rw [hD, Int.add_mul_emod_self_left]
  rw [hA, hB]

theorem toInt32_base_inj (r1 r2 c1 c2 : Int)
    (h1 : 0 ≤ r1) (h2 : r1 < 256) (h3 : 0 ≤ r2) (h4 : r2 < 256) (hne : r1 ≠ r2)
    (hc1 : 0 ≤ c1) (hc2 : c1 < 2 ^ 24) (hc3 : 0 ≤ c2) (hc4 : c2 < 2 ^ 24) :
    toInt32 (r1 * 2 ^ 24) + c1 ≠ toInt32 (r2 * 2 ^ 24) + c2 := by
  unfold toInt32
  omega

/-- C8, counterexample.  The claim says ids minted by distinct processes
never collide.  Processes with pids 1 and 257 (distinct, congruent modulo
256) mint the same first id `0x1000000`, because `pid << 24` truncates to
32 bits. -/
theorem claim_C8_counterexample :
    exPidOneC8.pid = 1 ∧ exPidBigC8.pid = 257 ∧
    (addStub exPidOneC8 1).1 = .ok 16777216 ∧
    (addStub exPidBigC8 1).1 = .ok 16777216 := by
  decide

/-- C8, amended.  A fresh export is assigned `mintId pid stubCnt`; within
one Endpoint ids at distinct counter values never collide; across
processes, ids collide exactly up to the truncated prefix: two Endpoints
whose pids differ modulo 256 can never mint equal ids (pids merely
distinct are not enough, as the counterexample shows). -/
theorem claim_C8 :
    (∀ s oid ms, List.lookup oid s.knownStubs = none →
      (heapGet s.heap oid).rpcMethods = some ms → s.stubCnt < 2 ^ 24 →
      (addStub s oid).1 = .ok (mintId s.pid s.stubCnt)) ∧
    (∀ pid c1 c2, c1 < 2 ^ 24 → c2 < 2 ^ 24 → c1 ≠ c2 →
      mintId pid c1 ≠ mintId pid c2) ∧
    (∀ p1 p2 c1 c2, c1 < 2 ^ 24 → c2 < 2 ^ 24 → p1 % 256 ≠ p2 % 256 →
      mintId p1 c1 ≠ mintId p2 c2) := by
  refine ⟨?_, ?_, ?_⟩
  · intro s oid ms hnew hms hcap
    have hnc : ¬ (2 ^ 24 ≤ s.stubCnt) := by omega
    simp only [addStub, hnew, hms, hnc, if_false]
  · intro pid c1 c2 h1 h2 hne heq
    unfold mintId at heq
    omega
  · intro p1 p2 c1 c2 h1 h2 hne heq
    unfold mintId at heq
    rw [jsShl24_pidMod p1, jsShl24_pidMod p2] at heq
    exact toInt32_base_inj ((p1 % 256 : Nat) : Int) ((p2 % 256 : Nat) : Int)
      (c1 : Int) (c2 : Int)
      (Int.natCast_nonneg _) (by exact_mod_cast Nat.mod_lt p1 (by omega))
      (Int.natCast_nonneg _) (by exact_mod_cast Nat.mod_lt p2 (by omega))
      (fun hca => hne (by exact_mod_cast hca))
      (Int.natCast_nonneg _) (by exact_mod_cast h1)
      (Int.natCast_nonneg _) (by exact_mod_cast h2) heq

/-- C8, witness: distinct counter values in process 5 give distinct ids. -/
theorem claim_C8_witness : mintId 5 0 ≠ mintId 5 1 :=
  claim_C8.2.1 5 0 1 (by decide) (by decide) (by decide)

/-! ### C9 — export-counter capacity -/

/-- C9.  For a not-yet-exported object carrying `$rpcMethods`, `addStub`
raises the `RangeError "Too many stubs"` capacity error exactly when the
24-bit counter space is exhausted (`stubCnt ≥ 2^24`), and below that bound
it succeeds, returning the minted id. -/
theorem claim_C9 (s : RpcSocketState) (oid : Nat) (ms : List String)
    (hnew : List.lookup oid s.knownStubs = none)
    (hms : (heapGet s.heap oid).rpcMethods = some ms) :
    ((addStub s oid).1 = .error (.rangeErr "Too many stubs") ↔ 2 ^ 24 ≤ s.stubCnt) ∧
    ((addStub s oid).1 = .ok (mintId s.pid s.stubCnt) ↔ s.stubCnt < 2 ^ 24) := by
  by_cases hc : 2 ^ 24 ≤ s.stubCnt
  · have hres : (addStub s oid).1 = .error (.rangeErr "Too many stubs") := by
      simp only [addStub, hnew, hms, hc, if_true]
    rw [hres]
    exact ⟨⟨fun _ => hc, fun _ => rfl⟩,
      ⟨fun hx => Except.noConfusion hx, fun hx => by omega⟩⟩
  · have hres : (addStub s oid).1 = .ok (mintId s.pid s.stubCnt) := by
      simp only [addStub, hnew, hms, hc, if_false]
    rw [hres]
    exact ⟨⟨fun hx => Except.noConfusion hx, fun hx => absurd hx hc⟩,
      ⟨fun _ => by omega, fun _ => rfl⟩⟩

/-- C9, witness at the concrete state `exFreshC9` (counter 0). -/
theorem claim_C9_witness :
    ((addStub exFreshC9 1).1 = .error (.rangeErr "Too many stubs") ↔
      2 ^ 24 ≤ exFreshC9.stubCnt) ∧
    ((addStub exFreshC9 1).1 = .ok (mintId exFreshC9.pid exFreshC9.stubCnt) ↔
      exFreshC9.stubCnt < 2 ^ 24) :=
  claim_C9 exFreshC9 1 ["m"] (by decide) (by decide)

/-! ### C10 — reply dispatch survives unmarshalling failures -/

/-- C10.  A reply whose id matches a pending call but whose payload fails
to unmarshal (its reference id is in neither registry) removes the
pending entry and rejects that call's future with the unmarshalling error;
`handleReply` is a total function, so the error never escapes reply
dispatch. -/
theorem claim_C10 (s : RpcSocketState) (i : Nat) (r : Wire) (e : RpcError)
    (hp : s.pendingCalls.contains i = true)
    (hu : unmarshalArgument s r = .error e) :
    handleReply s { id := .num i, reply := r } =
      ({ s with pendingCalls := s.pendingCalls.filter (fun x => !(x == i)) },
       some (i, .rejected e)) := by
  have hu2 : unmarshalArgument
      { s with pendingCalls := s.pendingCalls.filter (fun x => !(x == i)) } r =
      .error e :=
    (unmarshalArgument_maps s
      { s with pendingCalls := s.pendingCalls.filter (fun x => !(x == i)) }
      r rfl rfl).trans hu
  have hpm : i ∈ s.pendingCalls := by simpa using hp
  simp [handleReply, hp, hpm, errTruthy, hu2]

/-- C10, witness: reply id 4 with an unknown reference id 123. -/
theorem claim_C10_witness :
    handleReply exPendC10 { id := .num 4, reply := .wref 123 } =
      ({ exPendC10 with
          pendingCalls := exPendC10.pendingCalls.filter (fun x => !(x == 4)) },
       some (4, .rejected (.err "Invalid object 123"))) :=
  claim_C10 exPendC10 4 (.wref 123) (.err "Invalid object 123")
    (by decide) (by decide)

end TransparentRpc
